import Mathlib

/-!
Verification of the market-monitoring engine of the Stocks repository.

The definitions below are a shallow embedding of the engine in
`old/utils/crypt/market.py` (the most recent, parameterized revision of the
monitor, the one the repository's Django app `apps/crypts` instantiates) and
of the alert read path `fetch_recent_alerts` shared by `crypto_monitor.py`
and `apps/crypts/db.py`.  Prices, thresholds and wall-clock seconds are
modelled as rationals, epoch-millisecond timestamps as integers, and the
side effects of the async methods (SQL inserts, WebSocket broadcasts) as an
explicit list of `Effect` values returned next to the updated monitor state.
-/

/-- One finalized exchange candle, mirror of the Python dataclass
`ClosedKline` (`open` is a Lean keyword, hence the field `open_price`). -/
structure ClosedKline where
  symbol : String
  open_time : Int
  close_time : Int
  open_price : ℚ
  high : ℚ
  low : ℚ
  close : ℚ
deriving DecidableEq, Repr

/-- The window-statistics dictionary built by
`MarketMonitor._compute_window_stats`, one field per dictionary key. -/
structure WindowStats where
  window_end : Int
  change_close : ℚ
  change_low : ℚ
  change_high : ℚ
  length : Nat
  reference_open : ℚ
  reference_close : ℚ
  reference_low : ℚ
  reference_high : ℚ
  peak_price : ℚ
  peak_ts : Int
  peak_pct_from_open : ℚ
  trough_price : ℚ
  trough_ts : Int
  trough_pct_from_open : ℚ
  current_price : ℚ
  current_ts : Int
  current_pct_from_open : ℚ
  drop_from_peak : ℚ
  rise_from_trough : ℚ
deriving DecidableEq, Repr

/-- Observable side effect of the monitor: a persistence call on the store
or a broadcast on the hub.  Alert payload fields that are mere copies of the
window statistics are elided; the identifying fields are kept. -/
inductive Effect where
  | insert_kline (kline : ClosedKline)
  | insert_window_stats (symbol : String) (window_end : Int)
      (change_close change_low change_high : ℚ) (length : Nat)
  | insert_alert (symbol : String) (alert_type : String) (magnitude : ℚ) (ts : Int)
  | broadcast_alert (symbol : String) (alert_type : String) (magnitude : ℚ)
  | broadcast_price (symbol : String) (price : ℚ) (ts : Int)
deriving DecidableEq, Repr

/-- In-memory state of `MarketMonitor` (`market.py` constructor).  The
Python dicts keyed by symbol / timezone key / dedup triple are modelled as
total functions into `Option`; the deque of each symbol is a list ordered
oldest first. -/
structure MonitorState where
  symbols : List String
  window_size_minutes : Nat
  alert_thresholds : List ℚ
  alert_dedup_seconds : ℚ
  timezone_keys : List String
  windows : String → List ClosedKline
  today_open_by_tz : String → String → Option ℚ
  today_key_by_tz : String → String → Option Int
  last_alert_at : String × String × ℚ → Option ℚ
  last_price : String → Option ℚ

/-- Python's `max(window, key=f)`: scan keeping the current element unless a
strictly greater key appears, so ties keep the earliest element. -/
def py_max_by (f : ClosedKline → ℚ) (first : ClosedKline) (rest : List ClosedKline) :
    ClosedKline :=
  rest.foldl (fun best k => if f best < f k then k else best) first

/-- Python's `min(window, key=f)`: ties keep the earliest element. -/
def py_min_by (f : ClosedKline → ℚ) (first : ClosedKline) (rest : List ClosedKline) :
    ClosedKline :=
  rest.foldl (fun best k => if f k < f best then k else best) first

/-- `MarketMonitor._compute_window_stats`.  Returns `none` on a partial
window (`len(window) < self.window_size_minutes`) or when the oldest open is
zero; otherwise builds the statistics dictionary.  (The `match` on `[]`
is unreachable when the guard passes for a positive window size.) -/
def compute_window_stats (window_size_minutes : Nat) (window : List ClosedKline) :
    Option WindowStats :=
  if window.length < window_size_minutes then none
  else
    match window with
    | [] => none
    | first :: rest =>
      let open_base := first.open_price
      if open_base = 0 then none
      else
        let latest := List.getLast (first :: rest) (List.cons_ne_nil first rest)
        let peak := py_max_by (fun k => k.high) first rest
        let trough := py_min_by (fun k => k.low) first rest
        let close_last := latest.close
        let min_low := (rest.map (fun k => k.low)).foldl min first.low
        some
          { window_end := latest.close_time
            change_close := (close_last - open_base) / open_base
            change_low := (min_low - open_base) / open_base
            change_high := (peak.high - open_base) / open_base
            length := (first :: rest).length
            reference_open := open_base
            reference_close := close_last
            reference_low := min_low
            reference_high := peak.high
            peak_price := peak.high
            peak_ts := peak.close_time
            peak_pct_from_open := (peak.high - open_base) / open_base
            trough_price := trough.low
            trough_ts := trough.close_time
            trough_pct_from_open := (trough.low - open_base) / open_base
            current_price := close_last
            current_ts := latest.close_time
            current_pct_from_open := (close_last - open_base) / open_base
            drop_from_peak := (peak.high - close_last) / open_base
            rise_from_trough := (close_last - trough.low) / open_base }

/-- Append to a `deque(maxlen=n)`: the oldest element is evicted once the
window exceeds its capacity. -/
def window_append (maxlen : Nat) (w : List ClosedKline) (k : ClosedKline) :
    List ClosedKline :=
  let w2 := w ++ [k]
  w2.drop (w2.length - maxlen)

/-- `MarketMonitor._emit_alert`: look up the dedup key
`(symbol, alert_type, threshold)` with default `0`, return unchanged with no
effects when the last firing is closer than the dedup window, otherwise
record `now_sec` for the key, persist the alert and broadcast it. -/
def emit_alert (st : MonitorState) (alert_type : String) (threshold : ℚ)
    (symbol : String) (stats : WindowStats) (now_sec : ℚ) :
    MonitorState × List Effect :=
  let key : String × String × ℚ := (symbol, alert_type, threshold)
  let last_at := (st.last_alert_at key).getD 0
  if now_sec - last_at < st.alert_dedup_seconds then (st, [])
  else
    ({ st with
        last_alert_at := fun k => if k = key then some now_sec else st.last_alert_at k },
      [Effect.insert_alert symbol alert_type threshold stats.current_ts,
       Effect.broadcast_alert symbol alert_type threshold])

/-- Body of the threshold loop of `MarketMonitor._check_alerts`: evaluate
the drop condition, then the rebound condition, threading the dedup state. -/
def check_alerts_step (symbol : String) (stats : WindowStats) (now_sec : ℚ)
    (acc : MonitorState × List Effect) (threshold : ℚ) :
    MonitorState × List Effect :=
  let s1 :=
    if threshold ≤ stats.drop_from_peak then
      emit_alert acc.1 "rapid_drop" threshold symbol stats now_sec
    else (acc.1, [])
  let s2 :=
    if threshold ≤ stats.rise_from_trough then
      emit_alert s1.1 "rapid_rebound" threshold symbol stats now_sec
    else (s1.1, [])
  (s2.1, acc.2 ++ s1.2 ++ s2.2)

/-- `MarketMonitor._check_alerts`: iterate over the configured thresholds.
(The `stats.get("drop_from_peak") is None` guard of the Python loop is
vacuous for statistics produced by `_compute_window_stats`, which always
include that key.) -/
def check_alerts (st : MonitorState) (symbol : String) (stats : WindowStats)
    (now_sec : ℚ) : MonitorState × List Effect :=
  st.alert_thresholds.foldl (check_alerts_step symbol stats now_sec) (st, [])

/-- Body of the timezone loop of `MarketMonitor._update_daily_open`.  The
civil-date computation `datetime.fromtimestamp(open_time/1000, tz).date()`
is abstracted by the parameter `date_of` mapping a timezone key and an
epoch-millisecond open time to a calendar-date code. -/
def daily_step (date_of : String → Int → Int) (kline : ClosedKline)
    (s : MonitorState) (tz_key : String) : MonitorState :=
  let day := date_of tz_key kline.open_time
  if s.today_key_by_tz tz_key kline.symbol = some day then s
  else
    { s with
        today_key_by_tz := fun t sym =>
          if (t, sym) = (tz_key, kline.symbol) then some day
          else s.today_key_by_tz t sym
        today_open_by_tz := fun t sym =>
          if (t, sym) = (tz_key, kline.symbol) then some kline.open_price
          else s.today_open_by_tz t sym }

/-- `MarketMonitor._update_daily_open`: run the rollover check for every
configured timezone key in order. -/
def update_daily_open (date_of : String → Int → Int) (st : MonitorState)
    (kline : ClosedKline) : MonitorState :=
  st.timezone_keys.foldl (daily_step date_of kline) st

/-- `MarketMonitor._publish_price`: record the last price for the symbol and
broadcast a price payload. -/
def publish_price (st : MonitorState) (symbol : String) (price : ℚ) (ts_ms : Int) :
    MonitorState × List Effect :=
  ({ st with
      last_price := fun s => if s = symbol then some price else st.last_price s },
    [Effect.broadcast_price symbol price ts_ms])

/-- `MarketMonitor.handle_price_tick`: store the last price, then publish it
(`_publish_price` stores it a second time, which is idempotent). -/
def handle_price_tick (st : MonitorState) (symbol : String) (price : ℚ)
    (ts_ms : Int) : MonitorState × List Effect :=
  publish_price
    { st with
        last_price := fun s => if s = symbol then some price else st.last_price s }
    symbol price ts_ms

/-- `MarketMonitor.handle_closed_kline`: persist the kline, update the daily
opens, append to the symbol's window, and when statistics are produced
persist the window-stats row and evaluate alerts; always publish the close
price at the end. -/
def handle_closed_kline (date_of : String → Int → Int) (st : MonitorState)
    (kline : ClosedKline) (now_sec : ℚ) : MonitorState × List Effect :=
  let st1 := update_daily_open date_of st kline
  let w := window_append st1.window_size_minutes (st1.windows kline.symbol) kline
  let st2 :=
    { st1 with windows := fun s => if s = kline.symbol then w else st1.windows s }
  match compute_window_stats st2.window_size_minutes w with
  | some stats =>
    let r := check_alerts st2 kline.symbol stats now_sec
    let p := publish_price r.1 kline.symbol kline.close kline.close_time
    (p.1,
      Effect.insert_kline kline ::
        Effect.insert_window_stats kline.symbol stats.window_end stats.change_close
          stats.change_low stats.change_high stats.length :: (r.2 ++ p.2))
  | none =>
    let p := publish_price st2 kline.symbol kline.close kline.close_time
    (p.1, Effect.insert_kline kline :: p.2)

/-- A decoded Binance stream message, the result of the JSON decoding at the
top of `MarketMonitor.handle_stream_message` (symbols already lowercased). -/
inductive StreamMessage where
  | kline_event (symbol : String) (is_closed : Bool) (open_time close_time : Int)
      (open_price high low close : ℚ)
  | mini_ticker (symbol : String) (close : ℚ) (event_time : Int)
  | other_event
deriving DecidableEq, Repr

/-- `MarketMonitor.handle_stream_message` of `old/utils/crypt/market.py`:
in-progress klines are dropped, and both the kline and the mini-ticker paths
are taken only when the symbol is tracked (the `self.windows` and
`self.last_price` dicts are keyed exactly by `self.symbols`). -/
def handle_stream_message (date_of : String → Int → Int) (st : MonitorState)
    (msg : StreamMessage) (now_sec : ℚ) : MonitorState × List Effect :=
  match msg with
  | StreamMessage.kline_event symbol is_closed t tc o h l c =>
    if is_closed = false then (st, [])
    else if symbol ∈ st.symbols then
      handle_closed_kline date_of st
        { symbol := symbol, open_time := t, close_time := tc,
          open_price := o, high := h, low := l, close := c } now_sec
    else (st, [])
  | StreamMessage.mini_ticker symbol c e =>
    if symbol ∈ st.symbols then handle_price_tick st symbol c e else (st, [])
  | StreamMessage.other_event => (st, [])

/-- One row of the `alerts` table as read back by `fetch_recent_alerts`;
nullable columns are `Option`. -/
structure AlertRow where
  symbol : String
  alert_type : String
  magnitude : ℚ
  ts : Int
  reference_open : ℚ
  reference_close : ℚ
  reference_low : ℚ
  reference_high : ℚ
  reference_peak_ts : Option Int
  reference_current_ts : Option Int
  drop_from_peak : Option ℚ
  anchor_type : Option String
  anchor_price : Option ℚ
  anchor_ts : Option Int
  anchor_pct_from_open : Option ℚ
  current_pct_from_open : Option ℚ
  move_from_anchor : Option ℚ
deriving DecidableEq, Repr

/-- The alert dictionary assembled by `fetch_recent_alerts` for one row
(`reference` block fields inlined). -/
structure AlertOut where
  symbol : String
  alert_type : String
  magnitude : ℚ
  window_minutes : Nat
  ts : Int
  ref_open : ℚ
  ref_close : ℚ
  ref_low : ℚ
  ref_high : ℚ
  peak_price : ℚ
  peak_ts : Int
  current_price : ℚ
  current_ts : Int
  drop_from_peak : Option ℚ
  anchor_type : String
  anchor_price : ℚ
  anchor_ts : Int
  anchor_pct_from_open : Option ℚ
  current_pct_from_open : Option ℚ
  move_from_anchor : Option ℚ
deriving DecidableEq, Repr

/-- Python `x or d` for an optional number: `None` and `0` are falsy. -/
def py_or_q (x : Option ℚ) (d : ℚ) : ℚ :=
  match x with
  | none => d
  | some v => if v = 0 then d else v

/-- Python `x or d` for an optional integer: `None` and `0` are falsy. -/
def py_or_i (x : Option Int) (d : Int) : Int :=
  match x with
  | none => d
  | some v => if v = 0 then d else v

/-- Python `x or d` for an optional string: `None` and `""` are falsy. -/
def py_or_s (x : Option String) (d : String) : String :=
  match x with
  | none => d
  | some v => if v = "" then d else v

/-- Python `x or y` when both operands are optional numbers: the result can
still be `None`. -/
def py_or_opt_q (x y : Option ℚ) : Option ℚ :=
  match x with
  | none => y
  | some v => if v = 0 then y else some v

/-- The per-row body of `SQLiteStore.fetch_recent_alerts`
(`crypto_monitor.py`, identical in `PostgresStore.fetch_recent_alerts` of
`apps/crypts/db.py`): backfill legacy columns with `or`-defaults and build
the alert dictionary. -/
def convert_alert_row (window_minutes : Nat) (r : AlertRow) : AlertOut :=
  let anchor_type :=
    py_or_s r.anchor_type (if r.alert_type = "rapid_drop" then "peak" else "trough")
  let anchor_price :=
    py_or_q r.anchor_price
      (if r.alert_type = "rapid_drop" then r.reference_high else r.reference_low)
  let anchor_ts := py_or_i r.anchor_ts (py_or_i r.reference_peak_ts r.ts)
  let move_from_anchor := py_or_opt_q r.move_from_anchor r.drop_from_peak
  let anchor_pct :=
    if r.anchor_pct_from_open = none ∧ r.reference_open ≠ 0 then
      some ((anchor_price - r.reference_open) / r.reference_open)
    else r.anchor_pct_from_open
  let current_pct :=
    if r.current_pct_from_open = none ∧ r.reference_open ≠ 0 then
      some ((r.reference_close - r.reference_open) / r.reference_open)
    else r.current_pct_from_open
  { symbol := r.symbol
    alert_type := r.alert_type
    magnitude := r.magnitude
    window_minutes := window_minutes
    ts := r.ts
    ref_open := r.reference_open
    ref_close := r.reference_close
    ref_low := r.reference_low
    ref_high := r.reference_high
    peak_price := r.reference_high
    peak_ts := py_or_i r.reference_peak_ts r.ts
    current_price := r.reference_close
    current_ts := py_or_i r.reference_current_ts r.ts
    drop_from_peak := r.drop_from_peak
    anchor_type := anchor_type
    anchor_price := anchor_price
    anchor_ts := anchor_ts
    anchor_pct_from_open := anchor_pct
    current_pct_from_open := current_pct
    move_from_anchor := move_from_anchor }

/-- `fetch_recent_alerts` on a list of rows already selected and ordered by
the SQL query: every row converts without failing. -/
def fetch_recent_alerts (window_minutes : Nat) (rows : List AlertRow) :
    List AlertOut :=
  rows.map (convert_alert_row window_minutes)

/-- Specification-side predicate: `p` occurs in `l` and is the earliest
element attaining the maximum of `f` (everything before it is strictly
smaller, everything after it no larger). -/
def earliest_max_by (f : ClosedKline → ℚ) (l : List ClosedKline) (p : ClosedKline) :
    Prop :=
  ∃ l1 l2, l = l1 ++ p :: l2 ∧ (∀ x ∈ l1, f x < f p) ∧ (∀ x ∈ l2, f x ≤ f p)

/-- Specification-side predicate: `p` is the earliest element of `l`
attaining the minimum of `f`. -/
def earliest_min_by (f : ClosedKline → ℚ) (l : List ClosedKline) (p : ClosedKline) :
    Prop :=
  ∃ l1 l2, l = l1 ++ p :: l2 ∧ (∀ x ∈ l1, f p < f x) ∧ (∀ x ∈ l2, f p ≤ f x)

lemma py_max_by_spec (f : ClosedKline → ℚ) :
    ∀ (t : List ClosedKline) (b : ClosedKline),
      (py_max_by f b t = b ∧ ∀ x ∈ t, f x ≤ f b) ∨
      (∃ l1 l2, t = l1 ++ py_max_by f b t :: l2 ∧ f b < f (py_max_by f b t) ∧
        (∀ x ∈ l1, f x < f (py_max_by f b t)) ∧
        (∀ x ∈ l2, f x ≤ f (py_max_by f b t))) := by
  intro t
  induction t with
  | nil => intro b; left; exact ⟨rfl, by simp⟩
  | cons a t ih =>
    intro b
    by_cases hab : f b < f a
    · have hstep : py_max_by f b (a :: t) = py_max_by f a t := by
        simp [py_max_by, if_pos hab]
      rw [hstep]
      rcases ih a with ⟨heq, hall⟩ | ⟨l1, l2, ht, hblt, h1, h2⟩
      · right
        refine ⟨[], t, by rw [heq]; rfl, by rw [heq]; exact hab, by simp, ?_⟩
        intro x hx
        rw [heq]
        exact hall x hx
      · right
        refine ⟨a :: l1, l2, by rw [List.cons_append, ← ht], lt_trans hab hblt, ?_, h2⟩
        intro x hx
        rcases List.mem_cons.mp hx with hxa | hxl
        · rw [hxa]; exact hblt
        · exact h1 x hxl
    · have hstep : py_max_by f b (a :: t) = py_max_by f b t := by
        simp [py_max_by, if_neg hab]
      rw [hstep]
      rcases ih b with ⟨heq, hall⟩ | ⟨l1, l2, ht, hblt, h1, h2⟩
      · left
        refine ⟨heq, ?_⟩
        intro x hx
        rcases List.mem_cons.mp hx with hxa | hxl
        · rw [hxa]; exact not_lt.mp hab
        · exact hall x hxl
      · right
        refine ⟨a :: l1, l2, by rw [List.cons_append, ← ht], hblt, ?_, h2⟩
        intro x hx
        rcases List.mem_cons.mp hx with hxa | hxl
        · rw [hxa]; exact lt_of_le_of_lt (not_lt.mp hab) hblt
        · exact h1 x hxl

lemma py_min_by_spec (f : ClosedKline → ℚ) :
    ∀ (t : List ClosedKline) (b : ClosedKline),
      (py_min_by f b t = b ∧ ∀ x ∈ t, f b ≤ f x) ∨
      (∃ l1 l2, t = l1 ++ py_min_by f b t :: l2 ∧ f (py_min_by f b t) < f b ∧
        (∀ x ∈ l1, f (py_min_by f b t) < f x) ∧
        (∀ x ∈ l2, f (py_min_by f b t) ≤ f x)) := by
  intro t
  induction t with
  | nil => intro b; left; exact ⟨rfl, by simp⟩
  | cons a t ih =>
    intro b
    by_cases hab : f a < f b
    · have hstep : py_min_by f b (a :: t) = py_min_by f a t := by
        simp [py_min_by, if_pos hab]
      rw [hstep]
      rcases ih a with ⟨heq, hall⟩ | ⟨l1, l2, ht, hblt, h1, h2⟩
      · right
        refine ⟨[], t, by rw [heq]; rfl, by rw [heq]; exact hab, by simp, ?_⟩
        intro x hx
        rw [heq]
        exact hall x hx
      · right
        refine ⟨a :: l1, l2, by rw [List.cons_append, ← ht], lt_trans hblt hab, ?_, h2⟩
        intro x hx
        rcases List.mem_cons.mp hx with hxa | hxl
        · rw [hxa]; exact hblt
        · exact h1 x hxl
    · have hstep : py_min_by f b (a :: t) = py_min_by f b t := by
        simp [py_min_by, if_neg hab]
      rw [hstep]
      rcases ih b with ⟨heq, hall⟩ | ⟨l1, l2, ht, hblt, h1, h2⟩
      · left
        refine ⟨heq, ?_⟩
        intro x hx
        rcases List.mem_cons.mp hx with hxa | hxl
        · rw [hxa]; exact not_lt.mp hab
        · exact hall x hxl
      · right
        refine ⟨a :: l1, l2, by rw [List.cons_append, ← ht], hblt, ?_, h2⟩
        intro x hx
        rcases List.mem_cons.mp hx with hxa | hxl
        · rw [hxa]; exact lt_of_lt_of_le hblt (not_lt.mp hab)
        · exact h1 x hxl

lemma py_max_by_earliest (f : ClosedKline → ℚ) (h : ClosedKline)
    (t : List ClosedKline) : earliest_max_by f (h :: t) (py_max_by f h t) := by
  rcases py_max_by_spec f t h with ⟨heq, hall⟩ | ⟨l1, l2, ht, hblt, h1, h2⟩
  · refine ⟨[], t, by rw [heq]; rfl, by simp, ?_⟩
    intro x hx
    rw [heq]
    exact hall x hx
  · refine ⟨h :: l1, l2, by rw [List.cons_append, ← ht], ?_, h2⟩
    intro x hx
    rcases List.mem_cons.mp hx with hxa | hxl
    · rw [hxa]; exact hblt
    · exact h1 x hxl

lemma py_min_by_earliest (f : ClosedKline → ℚ) (h : ClosedKline)
    (t : List ClosedKline) : earliest_min_by f (h :: t) (py_min_by f h t) := by
  rcases py_min_by_spec f t h with ⟨heq, hall⟩ | ⟨l1, l2, ht, hblt, h1, h2⟩
  · refine ⟨[], t, by rw [heq]; rfl, by simp, ?_⟩
    intro x hx
    rw [heq]
    exact hall x hx
  · refine ⟨h :: l1, l2, by rw [List.cons_append, ← ht], ?_, h2⟩
    intro x hx
    rcases List.mem_cons.mp hx with hxa | hxl
    · rw [hxa]; exact hblt
    · exact h1 x hxl

lemma earliest_max_by_le (f : ClosedKline → ℚ) (l : List ClosedKline)
    (p : ClosedKline) (he : earliest_max_by f l p) : ∀ x ∈ l, f x ≤ f p := by
  rcases he with ⟨l1, l2, hl, h1, h2⟩
  intro x hx
  rw [hl] at hx
  rcases List.mem_append.mp hx with hx1 | hx2
  · exact le_of_lt (h1 x hx1)
  · rcases List.mem_cons.mp hx2 with hxp | hxl
    · rw [hxp]
    · exact h2 x hxl

lemma earliest_min_by_le (f : ClosedKline → ℚ) (l : List ClosedKline)
    (p : ClosedKline) (he : earliest_min_by f l p) : ∀ x ∈ l, f p ≤ f x := by
  rcases he with ⟨l1, l2, hl, h1, h2⟩
  intro x hx
  rw [hl] at hx
  rcases List.mem_append.mp hx with hx1 | hx2
  · exact le_of_lt (h1 x hx1)
  · rcases List.mem_cons.mp hx2 with hxp | hxl
    · rw [hxp]
    · exact h2 x hxl

lemma compute_window_stats_cons (n : Nat) (first : ClosedKline)
    (rest : List ClosedKline) :
    compute_window_stats n (first :: rest) =
      if (first :: rest).length < n then none
      else if first.open_price = 0 then none
      else
        some
          { window_end := (List.getLast (first :: rest) (List.cons_ne_nil first rest)).close_time
            change_close := ((List.getLast (first :: rest) (List.cons_ne_nil first rest)).close - first.open_price) / first.open_price
            change_low := ((rest.map (fun k => k.low)).foldl min first.low - first.open_price) / first.open_price
            change_high := ((py_max_by (fun k => k.high) first rest).high - first.open_price) / first.open_price
            length := (first :: rest).length
            reference_open := first.open_price
            reference_close := (List.getLast (first :: rest) (List.cons_ne_nil first rest)).close
            reference_low := (rest.map (fun k => k.low)).foldl min first.low
            reference_high := (py_max_by (fun k => k.high) first rest).high
            peak_price := (py_max_by (fun k => k.high) first rest).high
            peak_ts := (py_max_by (fun k => k.high) first rest).close_time
            peak_pct_from_open := ((py_max_by (fun k => k.high) first rest).high - first.open_price) / first.open_price
            trough_price := (py_min_by (fun k => k.low) first rest).low
            trough_ts := (py_min_by (fun k => k.low) first rest).close_time
            trough_pct_from_open := ((py_min_by (fun k => k.low) first rest).low - first.open_price) / first.open_price
            current_price := (List.getLast (first :: rest) (List.cons_ne_nil first rest)).close
            current_ts := (List.getLast (first :: rest) (List.cons_ne_nil first rest)).close_time
            current_pct_from_open := ((List.getLast (first :: rest) (List.cons_ne_nil first rest)).close - first.open_price) / first.open_price
            drop_from_peak := ((py_max_by (fun k => k.high) first rest).high - (List.getLast (first :: rest) (List.cons_ne_nil first rest)).close) / first.open_price
            rise_from_trough := ((List.getLast (first :: rest) (List.cons_ne_nil first rest)).close - (py_min_by (fun k => k.low) first rest).low) / first.open_price } :=
  rfl

/-- C1: on a full window whose oldest kline has non-zero open,
`_compute_window_stats` produces statistics whose `reference_open` is the
open of the oldest kline, whose peak (price and timestamp) is the earliest
kline attaining the maximum high and whose trough is the earliest kline
attaining the minimum low, with `drop_from_peak = (peak.high − latest.close)
/ reference_open` and `rise_from_trough = (latest.close − trough.low) /
reference_open`. -/
theorem compute_window_stats_full_window (n : Nat) (first : ClosedKline)
    (rest : List ClosedKline) (hfull : (first :: rest).length = n)
    (h0 : first.open_price ≠ 0) :
    ∃ s, compute_window_stats n (first :: rest) = some s ∧
      s.reference_open = first.open_price ∧
      (∃ p, earliest_max_by (fun k => k.high) (first :: rest) p ∧
        s.peak_price = p.high ∧ s.peak_ts = p.close_time ∧
        s.drop_from_peak =
          (p.high - (List.getLast (first :: rest) (List.cons_ne_nil first rest)).close)
            / s.reference_open) ∧
      (∃ q, earliest_min_by (fun k => k.low) (first :: rest) q ∧
        s.trough_price = q.low ∧ s.trough_ts = q.close_time ∧
        s.rise_from_trough =
          ((List.getLast (first :: rest) (List.cons_ne_nil first rest)).close - q.low)
            / s.reference_open) := by
  have hlt : ¬(first :: rest).length < n := by rw [hfull]; exact lt_irrefl n
  refine ⟨_, by rw [compute_window_stats_cons, if_neg hlt, if_neg h0], rfl,
    ⟨py_max_by (fun k => k.high) first rest, py_max_by_earliest _ _ _, rfl, rfl, rfl⟩,
    ⟨py_min_by (fun k => k.low) first rest, py_min_by_earliest _ _ _, rfl, rfl, rfl⟩⟩

/-- Sample closed klines used by the concrete witnesses. -/
def kline_a : ClosedKline :=
  { symbol := "btcusdt", open_time := 0, close_time := 59999,
    open_price := 100, high := 110, low := 95, close := 100 }

/-- Second sample closed kline. -/
def kline_b : ClosedKline :=
  { symbol := "btcusdt", open_time := 60000, close_time := 119999,
    open_price := 101, high := 112, low := 90, close := 103 }

/-- Witness for C1 at a concrete two-kline window. -/
theorem compute_window_stats_full_window_witness :
    ((kline_a :: [kline_b]).length = 2 ∧ kline_a.open_price ≠ 0) ∧
    (∃ s, compute_window_stats 2 (kline_a :: [kline_b]) = some s ∧
      s.reference_open = kline_a.open_price ∧
      (∃ p, earliest_max_by (fun k => k.high) (kline_a :: [kline_b]) p ∧
        s.peak_price = p.high ∧ s.peak_ts = p.close_time ∧
        s.drop_from_peak =
          (p.high - (List.getLast (kline_a :: [kline_b]) (List.cons_ne_nil kline_a [kline_b])).close)
            / s.reference_open) ∧
      (∃ q, earliest_min_by (fun k => k.low) (kline_a :: [kline_b]) q ∧
        s.trough_price = q.low ∧ s.trough_ts = q.close_time ∧
        s.rise_from_trough =
          ((List.getLast (kline_a :: [kline_b]) (List.cons_ne_nil kline_a [kline_b])).close - q.low)
            / s.reference_open)) :=
  ⟨⟨rfl, by decide⟩,
    compute_window_stats_full_window 2 kline_a [kline_b] rfl (by decide)⟩

/-- C8 (amended): whenever window statistics are produced for a full window
whose klines are well-formed candles (`low ≤ close ≤ high`) and whose
reference open is positive, `drop_from_peak ≥ 0` and `rise_from_trough ≥ 0`.
The positivity and well-formedness assumptions are necessary: see the
counterexample theorem. -/
theorem compute_window_stats_nonneg (n : Nat) (first : ClosedKline)
    (rest : List ClosedKline) (hfull : (first :: rest).length = n)
    (hpos : 0 < first.open_price)
    (hwf : ∀ k ∈ first :: rest, k.low ≤ k.close ∧ k.close ≤ k.high) :
    ∃ s, compute_window_stats n (first :: rest) = some s ∧
      0 ≤ s.drop_from_peak ∧ 0 ≤ s.rise_from_trough := by
  have hlt : ¬(first :: rest).length < n := by rw [hfull]; exact lt_irrefl n
  have h0 : first.open_price ≠ 0 := ne_of_gt hpos
  refine ⟨_, by rw [compute_window_stats_cons, if_neg hlt, if_neg h0], ?_, ?_⟩
  · have hmem := List.getLast_mem (List.cons_ne_nil first rest)
    have hlc :
        (List.getLast (first :: rest) (List.cons_ne_nil first rest)).close ≤
          (List.getLast (first :: rest) (List.cons_ne_nil first rest)).high :=
      (hwf _ hmem).2
    have hph :
        (List.getLast (first :: rest) (List.cons_ne_nil first rest)).high ≤
          (py_max_by (fun k => k.high) first rest).high :=
      earliest_max_by_le (fun k => k.high) (first :: rest) _
        (py_max_by_earliest _ _ _) _ hmem
    exact div_nonneg (sub_nonneg.mpr (le_trans hlc hph)) (le_of_lt hpos)
  · have hmem := List.getLast_mem (List.cons_ne_nil first rest)
    have hlc :
        (List.getLast (first :: rest) (List.cons_ne_nil first rest)).low ≤
          (List.getLast (first :: rest) (List.cons_ne_nil first rest)).close :=
      (hwf _ hmem).1
    have hql :
        (py_min_by (fun k => k.low) first rest).low ≤
          (List.getLast (first :: rest) (List.cons_ne_nil first rest)).low :=
      earliest_min_by_le (fun k => k.low) (first :: rest) _
        (py_min_by_earliest _ _ _) _ hmem
    exact div_nonneg (sub_nonneg.mpr (le_trans hql hlc)) (le_of_lt hpos)

/-- Witness for the amended C8 at a concrete two-kline window. -/
theorem compute_window_stats_nonneg_witness :
    ((kline_a :: [kline_b]).length = 2 ∧ 0 < kline_a.open_price ∧
      (∀ k ∈ kline_a :: [kline_b], k.low ≤ k.close ∧ k.close ≤ k.high)) ∧
    (∃ s, compute_window_stats 2 (kline_a :: [kline_b]) = some s ∧
      0 ≤ s.drop_from_peak ∧ 0 ≤ s.rise_from_trough) :=
  ⟨⟨rfl, by decide, by decide⟩,
    compute_window_stats_nonneg 2 kline_a [kline_b] rfl (by decide) (by decide)⟩

/-- Malformed candle (its close exceeds its high) showing that the source
computation can return negative `drop_from_peak` even with a non-zero
reference open. -/
def kline_bad : ClosedKline :=
  { symbol := "btcusdt", open_time := 0, close_time := 59999,
    open_price := 100, high := 100, low := 100, close := 200 }

/-- Counterexample to C8 as stated: a full one-kline window with non-zero
reference open whose statistics have `drop_from_peak < 0`, because nothing
in `_compute_window_stats` constrains `close ≤ high` or the sign of the
reference open. -/
theorem compute_window_stats_nonneg_counterexample :
    ∃ s, compute_window_stats 1 [kline_bad] = some s ∧
      ¬(0 ≤ s.drop_from_peak ∧ 0 ≤ s.rise_from_trough) := by
  refine ⟨_, by rw [compute_window_stats_cons, if_neg (by decide), if_neg (by decide)], ?_⟩
  intro h
  have hd := h.1
  dsimp only at hd
  rw [show py_max_by (fun k => k.high) kline_bad [] = kline_bad from rfl,
    show List.getLast [kline_bad] (List.cons_ne_nil kline_bad []) = kline_bad from rfl]
      at hd
  norm_num [kline_bad] at hd

/-- C3: once an alert for a dedup key `(symbol, alert_type, threshold)` has
fired at wall-clock time `t` (so that time is stored for the key), a firing
attempt at time `t'` with `t' − t` below the dedup window is suppressed —
state unchanged (in particular the stored time is not updated) and no
persistence or broadcast effect — while an attempt with `t' − t` at or above
the dedup window fires again: the key is updated to `t'` and the alert is
persisted and broadcast. -/
theorem emit_alert_dedup (st : MonitorState) (alert_type : String)
    (threshold : ℚ) (symbol : String) (stats : WindowStats) (t t' : ℚ)
    (hfired : st.last_alert_at (symbol, alert_type, threshold) = some t) :
    (t' - t < st.alert_dedup_seconds →
      emit_alert st alert_type threshold symbol stats t' = (st, [])) ∧
    (st.alert_dedup_seconds ≤ t' - t →
      emit_alert st alert_type threshold symbol stats t' =
        ({ st with
            last_alert_at := fun k =>
              if k = (symbol, alert_type, threshold) then some t'
              else st.last_alert_at k },
          [Effect.insert_alert symbol alert_type threshold stats.current_ts,
           Effect.broadcast_alert symbol alert_type threshold])) := by
  constructor
  · intro hlt
    simp only [emit_alert, hfired, Option.getD_some]
    rw [if_pos hlt]
  · intro hge
    simp only [emit_alert, hfired, Option.getD_some]
    rw [if_neg (not_lt.mpr hge)]

/-- Concrete monitor state for witnesses: one tracked symbol, window size 2,
one threshold, dedup window 180 seconds, and a dedup entry recorded at time
1000 for the rapid-drop key. -/
def sample_state : MonitorState :=
  { symbols := ["btcusdt"]
    window_size_minutes := 2
    alert_thresholds := [mkRat 1 20]
    alert_dedup_seconds := 180
    timezone_keys := ["utc"]
    windows := fun _ => []
    today_open_by_tz := fun _ _ => none
    today_key_by_tz := fun _ _ => none
    last_alert_at := fun k =>
      if k = ("btcusdt", "rapid_drop", mkRat 1 20) then some 1000 else none
    last_price := fun _ => none }

/-- Concrete window statistics for witnesses (drop and rise both 10%). -/
def sample_stats : WindowStats :=
  { window_end := 119999, change_close := 0, change_low := 0, change_high := 0
    length := 2, reference_open := 100, reference_close := 100
    reference_low := 90, reference_high := 110, peak_price := 110
    peak_ts := 59999, peak_pct_from_open := 0, trough_price := 90
    trough_ts := 119999, trough_pct_from_open := 0, current_price := 100
    current_ts := 119999, current_pct_from_open := 0
    drop_from_peak := mkRat 1 10, rise_from_trough := mkRat 1 10 }

/-- Witness for C3 at the concrete dedup entry: an attempt 100 seconds after
the stored firing is suppressed. -/
theorem emit_alert_dedup_witness :
    sample_state.last_alert_at ("btcusdt", "rapid_drop", mkRat 1 20) = some 1000 ∧
    (1100 : ℚ) - 1000 < sample_state.alert_dedup_seconds ∧
    emit_alert sample_state "rapid_drop" (mkRat 1 20) "btcusdt" sample_stats 1100 =
      (sample_state, []) :=
  ⟨by decide, by norm_num [sample_state],
    (emit_alert_dedup sample_state "rapid_drop" (mkRat 1 20) "btcusdt" sample_stats
        1000 1100 (by decide)).1 (by norm_num [sample_state])⟩

lemma emit_alert_fires (st : MonitorState) (alert_type : String) (threshold : ℚ)
    (symbol : String) (stats : WindowStats) (now_sec : ℚ)
    (h : st.last_alert_at (symbol, alert_type, threshold) = none)
    (hd : st.alert_dedup_seconds ≤ now_sec) :
    emit_alert st alert_type threshold symbol stats now_sec =
      ({ st with
          last_alert_at := fun k =>
            if k = (symbol, alert_type, threshold) then some now_sec
            else st.last_alert_at k },
        [Effect.insert_alert symbol alert_type threshold stats.current_ts,
         Effect.broadcast_alert symbol alert_type threshold]) := by
  have hnotlt : ¬(now_sec - 0 < st.alert_dedup_seconds) := by
    rw [sub_zero]
    exact not_lt.mpr hd
  simp only [emit_alert, h, Option.getD_none]
  rw [if_neg hnotlt]

/-- Effects that one threshold contributes on a pass where dedup suppresses
nothing: the drop alert when `drop_from_peak ≥ τ` and, independently, the
rebound alert when `rise_from_trough ≥ τ`. -/
def alert_effects_for (symbol : String) (stats : WindowStats) (threshold : ℚ) :
    List Effect :=
  (if threshold ≤ stats.drop_from_peak then
      [Effect.insert_alert symbol "rapid_drop" threshold stats.current_ts,
       Effect.broadcast_alert symbol "rapid_drop" threshold]
    else []) ++
  (if threshold ≤ stats.rise_from_trough then
      [Effect.insert_alert symbol "rapid_rebound" threshold stats.current_ts,
       Effect.broadcast_alert symbol "rapid_rebound" threshold]
    else [])

lemma emit_alert_dedup_seconds (st : MonitorState) (alert_type : String)
    (threshold : ℚ) (symbol : String) (stats : WindowStats) (now_sec : ℚ) :
    (emit_alert st alert_type threshold symbol stats now_sec).1.alert_dedup_seconds =
      st.alert_dedup_seconds := by
  simp only [emit_alert]
  split
  · rfl
  · rfl

lemma emit_alert_other_key {k : String × String × ℚ} {symbol alert_type : String}
    {threshold : ℚ} (hk : k ≠ (symbol, alert_type, threshold))
    (st : MonitorState) (stats : WindowStats) (now_sec : ℚ) :
    (emit_alert st alert_type threshold symbol stats now_sec).1.last_alert_at k =
      st.last_alert_at k := by
  simp only [emit_alert]
  split
  · rfl
  · simp only [if_neg hk]

lemma triple_ne_of_threshold_ne {symbol ty ty' : String} {τ threshold : ℚ}
    (hτ : τ ≠ threshold) :
    ((symbol, ty, τ) : String × String × ℚ) ≠ (symbol, ty', threshold) := by
  intro hcontra
  have hth : τ = threshold := congrArg (fun p => p.2.2) hcontra
  exact hτ hth

lemma check_alerts_step_dedup_seconds (symbol : String) (stats : WindowStats)
    (now_sec : ℚ) (st1 : MonitorState) (acc : List Effect) (threshold : ℚ) :
    (check_alerts_step symbol stats now_sec (st1, acc) threshold).1.alert_dedup_seconds =
      st1.alert_dedup_seconds := by
  simp only [check_alerts_step]
  split_ifs <;> simp [emit_alert_dedup_seconds]

lemma check_alerts_step_other_keys (symbol : String) (stats : WindowStats)
    (now_sec : ℚ) (st1 : MonitorState) (acc : List Effect) (threshold : ℚ)
    (ty : String) (τ : ℚ) (hτ : τ ≠ threshold) :
    (check_alerts_step symbol stats now_sec (st1, acc) threshold).1.last_alert_at
        (symbol, ty, τ) =
      st1.last_alert_at (symbol, ty, τ) := by
  simp only [check_alerts_step]
  split_ifs <;>
    simp [emit_alert_other_key (triple_ne_of_threshold_ne hτ),
      emit_alert_other_key (triple_ne_of_threshold_ne hτ)]

lemma check_alerts_step_effects (symbol : String) (stats : WindowStats)
    (now_sec : ℚ) (st1 : MonitorState) (acc : List Effect) (threshold : ℚ)
    (hfd : st1.last_alert_at (symbol, "rapid_drop", threshold) = none)
    (hfr : st1.last_alert_at (symbol, "rapid_rebound", threshold) = none)
    (hd : st1.alert_dedup_seconds ≤ now_sec) :
    (check_alerts_step symbol stats now_sec (st1, acc) threshold).2 =
      acc ++ alert_effects_for symbol stats threshold := by
  by_cases hdrop : threshold ≤ stats.drop_from_peak <;>
    by_cases hrise : threshold ≤ stats.rise_from_trough
  · have h2 :
        ({ st1 with
            last_alert_at := fun k =>
              if k = (symbol, "rapid_drop", threshold) then some now_sec
              else st1.last_alert_at k } :
          MonitorState).last_alert_at (symbol, "rapid_rebound", threshold) = none := by
      have hne : ((symbol, "rapid_rebound", threshold) : String × String × ℚ) ≠
          (symbol, "rapid_drop", threshold) := by
        intro hcontra
        have hstr : ("rapid_rebound" : String) = "rapid_drop" :=
          congrArg (fun p => p.2.1) hcontra
        exact absurd hstr (by decide)
      simp only [if_neg hne]
      exact hfr
    simp only [check_alerts_step, if_pos hdrop, if_pos hrise,
      emit_alert_fires st1 "rapid_drop" threshold symbol stats now_sec hfd hd,
      emit_alert_fires _ "rapid_rebound" threshold symbol stats now_sec h2 hd,
      alert_effects_for]
    simp
  · simp only [check_alerts_step, if_pos hdrop, if_neg hrise,
      emit_alert_fires st1 "rapid_drop" threshold symbol stats now_sec hfd hd,
      alert_effects_for]
    simp
  · simp only [check_alerts_step, if_neg hdrop, if_pos hrise,
      emit_alert_fires st1 "rapid_rebound" threshold symbol stats now_sec hfr hd,
      alert_effects_for]
    simp
  · simp only [check_alerts_step, if_neg hdrop, if_neg hrise, alert_effects_for]
    simp

lemma check_alerts_go (symbol : String) (stats : WindowStats) (now_sec : ℚ) :
    ∀ (ts : List ℚ) (st1 : MonitorState) (acc : List Effect),
      ts.Nodup →
      st1.alert_dedup_seconds ≤ now_sec →
      (∀ τ ∈ ts, ∀ ty : String, st1.last_alert_at (symbol, ty, τ) = none) →
      (ts.foldl (check_alerts_step symbol stats now_sec) (st1, acc)).2 =
        acc ++ ts.flatMap (alert_effects_for symbol stats) := by
  intro ts
  induction ts with
  | nil => intro st1 acc _ _ _; simp
  | cons τ ts ih =>
    intro st1 acc hnd hd hfresh
    have hτts : τ ∉ ts := (List.nodup_cons.mp hnd).1
    have heff :=
      check_alerts_step_effects symbol stats now_sec st1 acc τ
        (hfresh τ (List.mem_cons_self τ ts) "rapid_drop")
        (hfresh τ (List.mem_cons_self τ ts) "rapid_rebound") hd
    rw [List.foldl_cons]
    have hpair :
        check_alerts_step symbol stats now_sec (st1, acc) τ =
          ((check_alerts_step symbol stats now_sec (st1, acc) τ).1,
            acc ++ alert_effects_for symbol stats τ) := by
      rw [← heff]
    rw [hpair]
    rw [ih ((check_alerts_step symbol stats now_sec (st1, acc) τ).1)
      (acc ++ alert_effects_for symbol stats τ) (List.nodup_cons.mp hnd).2
      (by rw [check_alerts_step_dedup_seconds]; exact hd) ?_]
    · rw [List.flatMap_cons, List.append_assoc]
    · intro τ' hτ' ty
      rw [check_alerts_step_other_keys symbol stats now_sec st1 acc τ ty τ'
        (fun hc => hτts (hc ▸ hτ'))]
      exact hfresh τ' (List.mem_cons_of_mem τ hτ') ty

lemma mem_alert_effects_insert_drop (symbol : String) (stats : WindowStats)
    (τ τ' : ℚ) :
    Effect.insert_alert symbol "rapid_drop" τ stats.current_ts ∈
        alert_effects_for symbol stats τ' ↔
      (τ' = τ ∧ τ ≤ stats.drop_from_peak) := by
  by_cases h1 : τ' ≤ stats.drop_from_peak <;> by_cases h2 : τ' ≤ stats.rise_from_trough <;>
    simp [alert_effects_for, h1, h2] <;> aesop

lemma mem_alert_effects_broadcast_drop (symbol : String) (stats : WindowStats)
    (τ τ' : ℚ) :
    Effect.broadcast_alert symbol "rapid_drop" τ ∈
        alert_effects_for symbol stats τ' ↔
      (τ' = τ ∧ τ ≤ stats.drop_from_peak) := by
  by_cases h1 : τ' ≤ stats.drop_from_peak <;> by_cases h2 : τ' ≤ stats.rise_from_trough <;>
    simp [alert_effects_for, h1, h2] <;> aesop

lemma mem_alert_effects_insert_rebound (symbol : String) (stats : WindowStats)
    (τ τ' : ℚ) :
    Effect.insert_alert symbol "rapid_rebound" τ stats.current_ts ∈
        alert_effects_for symbol stats τ' ↔
      (τ' = τ ∧ τ ≤ stats.rise_from_trough) := by
  by_cases h1 : τ' ≤ stats.drop_from_peak <;> by_cases h2 : τ' ≤ stats.rise_from_trough <;>
    simp [alert_effects_for, h1, h2] <;> aesop

lemma mem_alert_effects_broadcast_rebound (symbol : String) (stats : WindowStats)
    (τ τ' : ℚ) :
    Effect.broadcast_alert symbol "rapid_rebound" τ ∈
        alert_effects_for symbol stats τ' ↔
      (τ' = τ ∧ τ ≤ stats.rise_from_trough) := by
  by_cases h1 : τ' ≤ stats.drop_from_peak <;> by_cases h2 : τ' ≤ stats.rise_from_trough <;>
    simp [alert_effects_for, h1, h2] <;> aesop

lemma check_alerts_effects_eq (st : MonitorState) (symbol : String)
    (stats : WindowStats) (now_sec : ℚ)
    (hfresh : ∀ k, st.last_alert_at k = none)
    (hd : st.alert_dedup_seconds ≤ now_sec)
    (hnd : st.alert_thresholds.Nodup) :
    (check_alerts st symbol stats now_sec).2 =
      st.alert_thresholds.flatMap (alert_effects_for symbol stats) := by
  have h := check_alerts_go symbol stats now_sec st.alert_thresholds st [] hnd hd
    (fun τ _ ty => hfresh (symbol, ty, τ))
  simpa [check_alerts] using h

/-- C4: on a pass of `_check_alerts` whose dedup map is empty and old enough
not to suppress (formally: every key unset and the dedup window already
elapsed since time zero, with duplicate-free configured thresholds), for
every configured threshold τ a `rapid_drop` alert is persisted and broadcast
exactly when `drop_from_peak ≥ τ`, and a `rapid_rebound` alert exactly when
`rise_from_trough ≥ τ`; the two conditions act independently for each τ. -/
theorem check_alerts_per_threshold (st : MonitorState) (symbol : String)
    (stats : WindowStats) (now_sec : ℚ)
    (hfresh : ∀ k, st.last_alert_at k = none)
    (hd : st.alert_dedup_seconds ≤ now_sec)
    (hnd : st.alert_thresholds.Nodup) :
    ∀ τ ∈ st.alert_thresholds,
      ((Effect.insert_alert symbol "rapid_drop" τ stats.current_ts ∈
            (check_alerts st symbol stats now_sec).2 ∧
          Effect.broadcast_alert symbol "rapid_drop" τ ∈
            (check_alerts st symbol stats now_sec).2) ↔
        τ ≤ stats.drop_from_peak) ∧
      ((Effect.insert_alert symbol "rapid_rebound" τ stats.current_ts ∈
            (check_alerts st symbol stats now_sec).2 ∧
          Effect.broadcast_alert symbol "rapid_rebound" τ ∈
            (check_alerts st symbol stats now_sec).2) ↔
        τ ≤ stats.rise_from_trough) := by
  intro τ hτ
  rw [check_alerts_effects_eq st symbol stats now_sec hfresh hd hnd]
  constructor
  · constructor
    · rintro ⟨hi, _⟩
      rcases List.mem_flatMap.mp hi with ⟨τ', _, hmem⟩
      exact ((mem_alert_effects_insert_drop symbol stats τ τ').mp hmem).2
    · intro hc
      exact ⟨List.mem_flatMap.mpr
          ⟨τ, hτ, (mem_alert_effects_insert_drop symbol stats τ τ).mpr ⟨rfl, hc⟩⟩,
        List.mem_flatMap.mpr
          ⟨τ, hτ, (mem_alert_effects_broadcast_drop symbol stats τ τ).mpr ⟨rfl, hc⟩⟩⟩
  · constructor
    · rintro ⟨hi, _⟩
      rcases List.mem_flatMap.mp hi with ⟨τ', _, hmem⟩
      exact ((mem_alert_effects_insert_rebound symbol stats τ τ').mp hmem).2
    · intro hc
      exact ⟨List.mem_flatMap.mpr
          ⟨τ, hτ, (mem_alert_effects_insert_rebound symbol stats τ τ).mpr ⟨rfl, hc⟩⟩,
        List.mem_flatMap.mpr
          ⟨τ, hτ, (mem_alert_effects_broadcast_rebound symbol stats τ τ).mpr ⟨rfl, hc⟩⟩⟩

/-- Monitor state with an empty dedup map, used by the alert-pass witnesses
and counterexample. -/
def fresh_state : MonitorState :=
  { sample_state with last_alert_at := fun _ => none }

/-- Witness for C4 at the concrete fresh state: with threshold 1/20 and both
moves at 1/10, both memberships are characterized by their conditions. -/
theorem check_alerts_per_threshold_witness :
    ((Effect.insert_alert "btcusdt" "rapid_drop" (mkRat 1 20)
            sample_stats.current_ts ∈
          (check_alerts fresh_state "btcusdt" sample_stats 200).2 ∧
        Effect.broadcast_alert "btcusdt" "rapid_drop" (mkRat 1 20) ∈
          (check_alerts fresh_state "btcusdt" sample_stats 200).2) ↔
      mkRat 1 20 ≤ sample_stats.drop_from_peak) ∧
    ((Effect.insert_alert "btcusdt" "rapid_rebound" (mkRat 1 20)
            sample_stats.current_ts ∈
          (check_alerts fresh_state "btcusdt" sample_stats 200).2 ∧
        Effect.broadcast_alert "btcusdt" "rapid_rebound" (mkRat 1 20) ∈
          (check_alerts fresh_state "btcusdt" sample_stats 200).2) ↔
      mkRat 1 20 ≤ sample_stats.rise_from_trough) :=
  check_alerts_per_threshold fresh_state "btcusdt" sample_stats 200
    (fun k => rfl) (by norm_num [fresh_state, sample_state])
    (by simp [fresh_state, sample_state])
    (mkRat 1 20) (by simp [fresh_state, sample_state])

/-- Counterexample to C5 as stated: with a single threshold 1/20 and window
statistics where both `drop_from_peak` and `rise_from_trough` equal 1/10,
one `_check_alerts` pass persists BOTH a `rapid_drop` and a `rapid_rebound`
alert for the SAME threshold — the code evaluates the two conditions
independently and nothing makes them mutually exclusive. -/
theorem check_alerts_same_threshold_counterexample :
    Effect.insert_alert "btcusdt" "rapid_drop" (mkRat 1 20)
        sample_stats.current_ts ∈
      (check_alerts fresh_state "btcusdt" sample_stats 200).2 ∧
    Effect.insert_alert "btcusdt" "rapid_rebound" (mkRat 1 20)
        sample_stats.current_ts ∈
      (check_alerts fresh_state "btcusdt" sample_stats 200).2 := by
  have heq := check_alerts_effects_eq fresh_state "btcusdt" sample_stats 200
    (fun k => rfl) (by norm_num [fresh_state, sample_state])
    (by simp [fresh_state, sample_state])
  rw [heq]
  constructor
  · exact List.mem_flatMap.mpr ⟨mkRat 1 20, by simp [fresh_state, sample_state],
      (mem_alert_effects_insert_drop "btcusdt" sample_stats (mkRat 1 20)
          (mkRat 1 20)).mpr ⟨rfl, by decide⟩⟩
  · exact List.mem_flatMap.mpr ⟨mkRat 1 20, by simp [fresh_state, sample_state],
      (mem_alert_effects_insert_rebound "btcusdt" sample_stats (mkRat 1 20)
          (mkRat 1 20)).mpr ⟨rfl, by decide⟩⟩

/-- C5 (amended): on a non-suppressing pass, for a single threshold τ both
alert types fire together exactly when both of their conditions hold
(`drop_from_peak ≥ τ` and `rise_from_trough ≥ τ`); at most one fires only
when at most one condition holds — the code does not make the two logics
mutually exclusive per threshold. -/
theorem check_alerts_both_types_iff (st : MonitorState) (symbol : String)
    (stats : WindowStats) (now_sec : ℚ)
    (hfresh : ∀ k, st.last_alert_at k = none)
    (hd : st.alert_dedup_seconds ≤ now_sec)
    (hnd : st.alert_thresholds.Nodup) :
    ∀ τ ∈ st.alert_thresholds,
      ((Effect.insert_alert symbol "rapid_drop" τ stats.current_ts ∈
            (check_alerts st symbol stats now_sec).2 ∧
          Effect.insert_alert symbol "rapid_rebound" τ stats.current_ts ∈
            (check_alerts st symbol stats now_sec).2) ↔
        (τ ≤ stats.drop_from_peak ∧ τ ≤ stats.rise_from_trough)) := by
  intro τ hτ
  rw [check_alerts_effects_eq st symbol stats now_sec hfresh hd hnd]
  constructor
  · rintro ⟨hi, hr⟩
    constructor
    · rcases List.mem_flatMap.mp hi with ⟨τ', _, hmem⟩
      exact ((mem_alert_effects_insert_drop symbol stats τ τ').mp hmem).2
    · rcases List.mem_flatMap.mp hr with ⟨τ', _, hmem⟩
      exact ((mem_alert_effects_insert_rebound symbol stats τ τ').mp hmem).2
  · rintro ⟨hc1, hc2⟩
    exact ⟨List.mem_flatMap.mpr
        ⟨τ, hτ, (mem_alert_effects_insert_drop symbol stats τ τ).mpr ⟨rfl, hc1⟩⟩,
      List.mem_flatMap.mpr
        ⟨τ, hτ, (mem_alert_effects_insert_rebound symbol stats τ τ).mpr ⟨rfl, hc2⟩⟩⟩

/-- Witness for the amended C5 at the concrete fresh state. -/
theorem check_alerts_both_types_iff_witness :
    (Effect.insert_alert "btcusdt" "rapid_drop" (mkRat 1 20)
          sample_stats.current_ts ∈
        (check_alerts fresh_state "btcusdt" sample_stats 200).2 ∧
      Effect.insert_alert "btcusdt" "rapid_rebound" (mkRat 1 20)
          sample_stats.current_ts ∈
        (check_alerts fresh_state "btcusdt" sample_stats 200).2) ↔
      (mkRat 1 20 ≤ sample_stats.drop_from_peak ∧
        mkRat 1 20 ≤ sample_stats.rise_from_trough) :=
  check_alerts_both_types_iff fresh_state "btcusdt" sample_stats 200
    (fun k => rfl) (by norm_num [fresh_state, sample_state])
    (by simp [fresh_state, sample_state])
    (mkRat 1 20) (by simp [fresh_state, sample_state])

lemma daily_step_eq_of_same_day (date_of : String → Int → Int)
    (kline : ClosedKline) (s : MonitorState) (tz : String)
    (h : s.today_key_by_tz tz kline.symbol = some (date_of tz kline.open_time)) :
    daily_step date_of kline s tz = s := by
  simp only [daily_step, if_pos h]

lemma daily_step_set (date_of : String → Int → Int) (kline : ClosedKline)
    (s : MonitorState) (tz : String)
    (h : s.today_key_by_tz tz kline.symbol ≠ some (date_of tz kline.open_time)) :
    (daily_step date_of kline s tz).today_key_by_tz tz kline.symbol =
        some (date_of tz kline.open_time) ∧
    (daily_step date_of kline s tz).today_open_by_tz tz kline.symbol =
        some kline.open_price := by
  simp only [daily_step, if_neg h]
  exact ⟨by simp, by simp⟩

lemma daily_step_other (date_of : String → Int → Int) (kline : ClosedKline)
    (s : MonitorState) (tz : String) (t sym : String)
    (h : (t, sym) ≠ (tz, kline.symbol)) :
    (daily_step date_of kline s tz).today_key_by_tz t sym =
        s.today_key_by_tz t sym ∧
    (daily_step date_of kline s tz).today_open_by_tz t sym =
        s.today_open_by_tz t sym := by
  simp only [daily_step]
  split
  · exact ⟨rfl, rfl⟩
  · constructor
    · show (if (t, sym) = (tz, kline.symbol) then some (date_of tz kline.open_time)
          else s.today_key_by_tz t sym) = s.today_key_by_tz t sym
      rw [if_neg h]
    · show (if (t, sym) = (tz, kline.symbol) then some kline.open_price
          else s.today_open_by_tz t sym) = s.today_open_by_tz t sym
      rw [if_neg h]

lemma daily_fold_frame (date_of : String → Int → Int) (kline : ClosedKline) :
    ∀ (l : List String) (s : MonitorState) (t sym : String),
      (sym ≠ kline.symbol ∨ t ∉ l) →
      (l.foldl (daily_step date_of kline) s).today_key_by_tz t sym =
          s.today_key_by_tz t sym ∧
      (l.foldl (daily_step date_of kline) s).today_open_by_tz t sym =
          s.today_open_by_tz t sym := by
  intro l
  induction l with
  | nil => intro s t sym _; exact ⟨rfl, rfl⟩
  | cons a l ih =>
    intro s t sym h
    have hne : (t, sym) ≠ (a, kline.symbol) := by
      rcases h with h | h
      · intro hc
        exact h (congrArg (fun p => p.2) hc)
      · intro hc
        have h1 : t = a := congrArg (fun p => p.1) hc
        exact h (h1 ▸ List.mem_cons_self a l)
    have hstep := daily_step_other date_of kline s a t sym hne
    have htail : sym ≠ kline.symbol ∨ t ∉ l := by
      rcases h with h | h
      · exact Or.inl h
      · exact Or.inr (fun hc => h (List.mem_cons_of_mem a hc))
    have hfold := ih (daily_step date_of kline s a) t sym htail
    rw [List.foldl_cons]
    exact ⟨hfold.1.trans hstep.1, hfold.2.trans hstep.2⟩

lemma daily_fold_tz (date_of : String → Int → Int) (kline : ClosedKline) :
    ∀ (l : List String), l.Nodup → ∀ (s : MonitorState), ∀ tz ∈ l,
      (s.today_key_by_tz tz kline.symbol = some (date_of tz kline.open_time) →
        (l.foldl (daily_step date_of kline) s).today_key_by_tz tz kline.symbol =
            s.today_key_by_tz tz kline.symbol ∧
        (l.foldl (daily_step date_of kline) s).today_open_by_tz tz kline.symbol =
            s.today_open_by_tz tz kline.symbol) ∧
      (s.today_key_by_tz tz kline.symbol ≠ some (date_of tz kline.open_time) →
        (l.foldl (daily_step date_of kline) s).today_key_by_tz tz kline.symbol =
            some (date_of tz kline.open_time) ∧
        (l.foldl (daily_step date_of kline) s).today_open_by_tz tz kline.symbol =
            some kline.open_price) := by
  intro l
  induction l with
  | nil => intro _ s tz htz; exact absurd htz (List.not_mem_nil tz)
  | cons a l ih =>
    intro hnd s tz htz
    have hal : a ∉ l := (List.nodup_cons.mp hnd).1
    rcases List.mem_cons.mp htz with hta | htl
    · subst hta
      constructor
      · intro hsame
        rw [List.foldl_cons, daily_step_eq_of_same_day date_of kline s tz hsame]
        exact daily_fold_frame date_of kline l s tz kline.symbol (Or.inr hal)
      · intro hdiff
        rw [List.foldl_cons]
        have hset := daily_step_set date_of kline s tz hdiff
        have hfr := daily_fold_frame date_of kline l
          (daily_step date_of kline s tz) tz kline.symbol (Or.inr hal)
        exact ⟨hfr.1.trans hset.1, hfr.2.trans hset.2⟩
    · have hne : (tz, kline.symbol) ≠ (a, kline.symbol) := by
        intro hc
        have h1 : tz = a := congrArg (fun p => p.1) hc
        exact hal (h1 ▸ htl)
      have hstep := daily_step_other date_of kline s a tz kline.symbol hne
      have hih := ih (List.nodup_cons.mp hnd).2 (daily_step date_of kline s a) tz htl
      rw [List.foldl_cons]
      constructor
      · intro hsame
        have h1 := hih.1 (by rw [hstep.1]; exact hsame)
        exact ⟨h1.1.trans hstep.1, h1.2.trans hstep.2⟩
      · intro hdiff
        exact hih.2 (by rw [hstep.1]; exact hdiff)

/-- C6: for every configured timezone key (keys are distinct, as Python dict
keys), `_update_daily_open` rolls the stored (timezone, symbol) date over to
the calendar date of the kline's open time and stores this kline's open
price exactly when that date differs from the stored one, leaves both
unchanged when it is equal — independently for every timezone in the same
call — and never touches entries of other symbols. -/
theorem update_daily_open_per_timezone (date_of : String → Int → Int)
    (st : MonitorState) (kline : ClosedKline)
    (hnd : st.timezone_keys.Nodup) :
    (∀ tz ∈ st.timezone_keys,
      (st.today_key_by_tz tz kline.symbol = some (date_of tz kline.open_time) →
        (update_daily_open date_of st kline).today_key_by_tz tz kline.symbol =
            st.today_key_by_tz tz kline.symbol ∧
        (update_daily_open date_of st kline).today_open_by_tz tz kline.symbol =
            st.today_open_by_tz tz kline.symbol) ∧
      (st.today_key_by_tz tz kline.symbol ≠ some (date_of tz kline.open_time) →
        (update_daily_open date_of st kline).today_key_by_tz tz kline.symbol =
            some (date_of tz kline.open_time) ∧
        (update_daily_open date_of st kline).today_open_by_tz tz kline.symbol =
            some kline.open_price)) ∧
    (∀ t sym, sym ≠ kline.symbol →
      (update_daily_open date_of st kline).today_key_by_tz t sym =
          st.today_key_by_tz t sym ∧
      (update_daily_open date_of st kline).today_open_by_tz t sym =
          st.today_open_by_tz t sym) := by
  constructor
  · intro tz htz
    exact daily_fold_tz date_of kline st.timezone_keys hnd st tz htz
  · intro t sym hsym
    exact daily_fold_frame date_of kline st.timezone_keys st t sym (Or.inl hsym)

/-- Witness for C6: with no stored date, the UTC entry rolls over to the
kline's date and open price. -/
theorem update_daily_open_per_timezone_witness :
    sample_state.timezone_keys.Nodup ∧
    sample_state.today_key_by_tz "utc" "btcusdt" ≠ some 0 ∧
    (update_daily_open (fun _ _ => 0) sample_state kline_a).today_key_by_tz
        "utc" "btcusdt" = some 0 ∧
    (update_daily_open (fun _ _ => 0) sample_state kline_a).today_open_by_tz
        "utc" "btcusdt" = some 100 :=
  ⟨by simp [sample_state], by decide,
    (((update_daily_open_per_timezone (fun _ _ => 0) sample_state kline_a
          (by simp [sample_state])).1 "utc" (by simp [sample_state])).2
      (by decide)).1,
    (((update_daily_open_per_timezone (fun _ _ => 0) sample_state kline_a
          (by simp [sample_state])).1 "utc" (by simp [sample_state])).2
      (by decide)).2⟩

lemma daily_fold_preserves (date_of : String → Int → Int) (kline : ClosedKline) :
    ∀ (l : List String) (s : MonitorState),
      (l.foldl (daily_step date_of kline) s).windows = s.windows ∧
      (l.foldl (daily_step date_of kline) s).window_size_minutes =
          s.window_size_minutes ∧
      (l.foldl (daily_step date_of kline) s).last_alert_at = s.last_alert_at := by
  intro l
  induction l with
  | nil => intro s; exact ⟨rfl, rfl, rfl⟩
  | cons a l ih =>
    intro s
    have hstep : (daily_step date_of kline s a).windows = s.windows ∧
        (daily_step date_of kline s a).window_size_minutes = s.window_size_minutes ∧
        (daily_step date_of kline s a).last_alert_at = s.last_alert_at := by
      simp only [daily_step]
      split
      · exact ⟨rfl, rfl, rfl⟩
      · exact ⟨rfl, rfl, rfl⟩
    rw [List.foldl_cons]
    obtain ⟨h1, h2, h3⟩ := ih (daily_step date_of kline s a)
    exact ⟨h1.trans hstep.1, h2.trans hstep.2.1, h3.trans hstep.2.2⟩

lemma compute_window_stats_none_of (n : Nat) (w : List ClosedKline)
    (h : w.length < n ∨ (w.map (fun k => k.open_price)).head? = some 0) :
    compute_window_stats n w = none := by
  rcases h with hlen | hopen
  · unfold compute_window_stats
    rw [if_pos hlen]
  · cases w with
    | nil => simp at hopen
    | cons f r =>
      have hf : f.open_price = 0 := by simpa using hopen
      rw [compute_window_stats_cons]
      by_cases hl : (f :: r).length < n
      · rw [if_pos hl]
      · rw [if_neg hl, if_pos hf]

/-- C2: when the appended window is still shorter than the configured size,
or its oldest kline has open price zero, `_compute_window_stats` returns
nothing, and `handle_closed_kline` persists only the kline plus the price
broadcast — no window-stats row is written and no alert evaluation happens
(the dedup map is untouched). -/
theorem handle_closed_kline_no_stats (date_of : String → Int → Int)
    (st : MonitorState) (kline : ClosedKline) (now_sec : ℚ)
    (h : (window_append st.window_size_minutes (st.windows kline.symbol)
            kline).length < st.window_size_minutes ∨
         ((window_append st.window_size_minutes (st.windows kline.symbol)
            kline).map (fun k => k.open_price)).head? = some 0) :
    compute_window_stats st.window_size_minutes
        (window_append st.window_size_minutes (st.windows kline.symbol) kline) =
      none ∧
    (handle_closed_kline date_of st kline now_sec).2 =
      [Effect.insert_kline kline,
       Effect.broadcast_price kline.symbol kline.close kline.close_time] ∧
    (handle_closed_kline date_of st kline now_sec).1.last_alert_at =
      st.last_alert_at := by
  obtain ⟨hw, hn, hla⟩ :=
    daily_fold_preserves date_of kline st.timezone_keys st
  have hnone := compute_window_stats_none_of st.window_size_minutes
    (window_append st.window_size_minutes (st.windows kline.symbol) kline) h
  have hcs' : compute_window_stats
      (update_daily_open date_of st kline).window_size_minutes
      (window_append (update_daily_open date_of st kline).window_size_minutes
        ((update_daily_open date_of st kline).windows kline.symbol) kline) =
      none := by
    unfold update_daily_open
    rw [hn, hw]
    exact hnone
  refine ⟨hnone, ?_, ?_⟩
  · simp only [handle_closed_kline, hcs']
    rfl
  · simp only [handle_closed_kline, hcs', publish_price]
    exact hla

/-- Witness for C2: appending one kline to an empty window of size 2. -/
theorem handle_closed_kline_no_stats_witness :
    ((window_append sample_state.window_size_minutes
        (sample_state.windows "btcusdt") kline_a).length <
          sample_state.window_size_minutes ∨
      ((window_append sample_state.window_size_minutes
          (sample_state.windows "btcusdt") kline_a).map
            (fun k => k.open_price)).head? = some 0) ∧
    (compute_window_stats sample_state.window_size_minutes
        (window_append sample_state.window_size_minutes
          (sample_state.windows "btcusdt") kline_a) = none ∧
      (handle_closed_kline (fun _ _ => 0) sample_state kline_a 1000).2 =
        [Effect.insert_kline kline_a,
         Effect.broadcast_price "btcusdt" kline_a.close kline_a.close_time] ∧
      (handle_closed_kline (fun _ _ => 0) sample_state kline_a 1000).1.last_alert_at =
        sample_state.last_alert_at) :=
  ⟨Or.inl (by decide),
    handle_closed_kline_no_stats (fun _ _ => 0) sample_state kline_a 1000
      (Or.inl (by decide))⟩

/-- C7: a decoded closed-kline stream message whose symbol is not tracked is
dropped by `handle_stream_message`: the call returns normally with the
monitor state exactly unchanged and no persistence or broadcast effect. -/
theorem handle_stream_message_untracked (date_of : String → Int → Int)
    (st : MonitorState) (symbol : String) (t tc : Int) (o hi lo c : ℚ)
    (now_sec : ℚ) (hsym : symbol ∉ st.symbols) :
    handle_stream_message date_of st
        (StreamMessage.kline_event symbol true t tc o hi lo c) now_sec =
      (st, []) := by
  simp only [handle_stream_message]
  rw [if_neg (by decide : ¬(true = false)), if_neg hsym]

/-- Witness for C7: a kline for an untracked symbol leaves the sample state
untouched. -/
theorem handle_stream_message_untracked_witness :
    ("dogeusdt" ∉ sample_state.symbols) ∧
    handle_stream_message (fun _ _ => 0) sample_state
        (StreamMessage.kline_event "dogeusdt" true 0 59999 1 2 1 2) 1000 =
      (sample_state, []) :=
  ⟨by decide,
    handle_stream_message_untracked (fun _ _ => 0) sample_state "dogeusdt"
      0 59999 1 2 1 2 1000 (by decide)⟩

/-- C10: `handle_price_tick` changes only the last-price entry of the given
symbol and broadcasts one price payload: windows, both daily-open maps, the
alert dedup map and the last prices of all other symbols are unchanged. -/
theorem handle_price_tick_frame (st : MonitorState) (symbol : String)
    (price : ℚ) (ts_ms : Int) :
    (handle_price_tick st symbol price ts_ms).1.windows = st.windows ∧
    (handle_price_tick st symbol price ts_ms).1.today_open_by_tz =
        st.today_open_by_tz ∧
    (handle_price_tick st symbol price ts_ms).1.today_key_by_tz =
        st.today_key_by_tz ∧
    (handle_price_tick st symbol price ts_ms).1.last_alert_at =
        st.last_alert_at ∧
    (handle_price_tick st symbol price ts_ms).1.last_price symbol = some price ∧
    (∀ s, s ≠ symbol →
      (handle_price_tick st symbol price ts_ms).1.last_price s =
        st.last_price s) ∧
    (handle_price_tick st symbol price ts_ms).2 =
      [Effect.broadcast_price symbol price ts_ms] := by
  refine ⟨rfl, rfl, rfl, rfl, ?_, ?_, rfl⟩
  · show (if symbol = symbol then some price
        else (if symbol = symbol then some price else st.last_price symbol)) =
      some price
    rw [if_pos rfl]
  · intro s hs
    show (if s = symbol then some price
        else (if s = symbol then some price else st.last_price s)) =
      st.last_price s
    rw [if_neg hs, if_neg hs]

/-- Witness for C10 at the sample state: a tick for btcusdt updates its last
price, leaves ethusdt's last price alone and broadcasts once. -/
theorem handle_price_tick_frame_witness :
    ("ethusdt" : String) ≠ "btcusdt" ∧
    (handle_price_tick sample_state "btcusdt" 5 777).1.last_price "ethusdt" =
      sample_state.last_price "ethusdt" ∧
    (handle_price_tick sample_state "btcusdt" 5 777).1.last_price "btcusdt" =
      some 5 ∧
    (handle_price_tick sample_state "btcusdt" 5 777).2 =
      [Effect.broadcast_price "btcusdt" 5 777] :=
  ⟨by decide,
    (handle_price_tick_frame sample_state "btcusdt" 5 777).2.2.2.2.2.1
      "ethusdt" (by decide),
    (handle_price_tick_frame sample_state "btcusdt" 5 777).2.2.2.2.1,
    (handle_price_tick_frame sample_state "btcusdt" 5 777).2.2.2.2.2.2⟩

lemma py_or_q_some_ne (v d : ℚ) (h : v ≠ 0) : py_or_q (some v) d = v := by
  simp [py_or_q, h]

lemma py_or_s_some_ne (v d : String) (h : v ≠ "") : py_or_s (some v) d = v := by
  simp [py_or_s, h]

/-- Legacy alerts row with several falsy stored fields, used for the C9
counterexample: `anchor_price` is PRESENT in storage with value `0`. -/
def legacy_row : AlertRow :=
  { symbol := "btcusdt", alert_type := "rapid_drop", magnitude := 1, ts := 5
    reference_open := 100, reference_close := 99, reference_low := 98
    reference_high := 110, reference_peak_ts := none
    reference_current_ts := none, drop_from_peak := none, anchor_type := none
    anchor_price := some 0, anchor_ts := none, anchor_pct_from_open := some 0
    current_pct_from_open := some 0, move_from_anchor := none }

/-- Counterexample to C9 as stated: the backfill in `fetch_recent_alerts`
uses Python `or`, which tests falsiness rather than absence, so an
`anchor_price` that is present in storage with value `0` is NOT returned
unchanged — it is replaced by `reference_high`. -/
theorem convert_alert_row_counterexample :
    legacy_row.anchor_price = some 0 ∧
    (convert_alert_row 5 legacy_row).anchor_price = 110 ∧
    (110 : ℚ) ≠ 0 :=
  ⟨rfl, by decide, by norm_num⟩

/-- C9 (amended): `fetch_recent_alerts` never fails on a stored row, and per
row: `anchor_type` is backfilled with "peak" for `rapid_drop` and "trough"
otherwise when the stored value is absent (or empty — Python falsiness),
`anchor_price` is backfilled with `reference_high`/`reference_low`
accordingly when absent or zero, the two percentage fields are computed from
`reference_open` when absent and `reference_open` is non-zero (and left
absent when `reference_open` is zero), and stored values that are truthy
(non-null, non-zero, non-empty) are returned unchanged; percentage fields
present with any value, zero included, are returned unchanged. -/
theorem convert_alert_row_backfill (wm : Nat) (r : AlertRow) :
    ((∀ s, r.anchor_type = some s → s ≠ "" →
        (convert_alert_row wm r).anchor_type = s) ∧
      ((r.anchor_type = none ∨ r.anchor_type = some "") →
        (convert_alert_row wm r).anchor_type =
          (if r.alert_type = "rapid_drop" then "peak" else "trough"))) ∧
    ((∀ v, r.anchor_price = some v → v ≠ 0 →
        (convert_alert_row wm r).anchor_price = v) ∧
      ((r.anchor_price = none ∨ r.anchor_price = some 0) →
        (convert_alert_row wm r).anchor_price =
          (if r.alert_type = "rapid_drop" then r.reference_high
            else r.reference_low))) ∧
    ((∀ p, r.anchor_pct_from_open = some p →
        (convert_alert_row wm r).anchor_pct_from_open = some p) ∧
      (r.anchor_pct_from_open = none → r.reference_open ≠ 0 →
        (convert_alert_row wm r).anchor_pct_from_open =
          some (((convert_alert_row wm r).anchor_price - r.reference_open) /
            r.reference_open)) ∧
      (r.anchor_pct_from_open = none → r.reference_open = 0 →
        (convert_alert_row wm r).anchor_pct_from_open = none)) ∧
    ((∀ p, r.current_pct_from_open = some p →
        (convert_alert_row wm r).current_pct_from_open = some p) ∧
      (r.current_pct_from_open = none → r.reference_open ≠ 0 →
        (convert_alert_row wm r).current_pct_from_open =
          some ((r.reference_close - r.reference_open) / r.reference_open)) ∧
      (r.current_pct_from_open = none → r.reference_open = 0 →
        (convert_alert_row wm r).current_pct_from_open = none)) := by
  refine ⟨⟨?_, ?_⟩, ⟨?_, ?_⟩, ⟨?_, ?_, ?_⟩, ⟨?_, ?_, ?_⟩⟩
  · intro s hs hne
    show py_or_s r.anchor_type _ = s
    rw [hs]
    exact py_or_s_some_ne s _ hne
  · intro hcase
    show py_or_s r.anchor_type _ = _
    rcases hcase with hn | hz
    · rw [hn]; rfl
    · rw [hz]; rfl
  · intro v hv hne
    show py_or_q r.anchor_price _ = v
    rw [hv]
    exact py_or_q_some_ne v _ hne
  · intro hcase
    show py_or_q r.anchor_price _ = _
    rcases hcase with hn | hz
    · rw [hn]; rfl
    · rw [hz]; simp [py_or_q]
  · intro p hp
    show (if r.anchor_pct_from_open = none ∧ r.reference_open ≠ 0 then _
        else r.anchor_pct_from_open) = some p
    rw [if_neg (by simp [hp]), hp]
  · intro hn h0
    show (if r.anchor_pct_from_open = none ∧ r.reference_open ≠ 0 then
        some ((py_or_q r.anchor_price _ - r.reference_open) / r.reference_open)
        else r.anchor_pct_from_open) = _
    rw [if_pos ⟨hn, h0⟩]
    rfl
  · intro hn h0
    show (if r.anchor_pct_from_open = none ∧ r.reference_open ≠ 0 then _
        else r.anchor_pct_from_open) = none
    rw [if_neg (by simp [h0]), hn]
  · intro p hp
    show (if r.current_pct_from_open = none ∧ r.reference_open ≠ 0 then _
        else r.current_pct_from_open) = some p
    rw [if_neg (by simp [hp]), hp]
  · intro hn h0
    show (if r.current_pct_from_open = none ∧ r.reference_open ≠ 0 then
        some ((r.reference_close - r.reference_open) / r.reference_open)
        else r.current_pct_from_open) = _
    rw [if_pos ⟨hn, h0⟩]
  · intro hn h0
    show (if r.current_pct_from_open = none ∧ r.reference_open ≠ 0 then _
        else r.current_pct_from_open) = none
    rw [if_neg (by simp [h0]), hn]

/-- Row with truthy stored anchor fields, used by the C9 witness. -/
def stored_row : AlertRow :=
  { legacy_row with anchor_price := some 7, anchor_type := some "trough" }

/-- Witness for the amended C9: truthy stored values survive unchanged. -/
theorem convert_alert_row_backfill_witness :
    stored_row.anchor_price = some 7 ∧ (7 : ℚ) ≠ 0 ∧
    (convert_alert_row 5 stored_row).anchor_price = 7 :=
  ⟨rfl, by norm_num,
    (convert_alert_row_backfill 5 stored_row).2.1.1 7 rfl (by norm_num)⟩
